import Mathlib

set_option autoImplicit false

/-!
Verification of the workspace lifecycle and configuration-resolution core of
the remux repository (Go). Pure fragments of the source are embedded as
executable Lean definitions; external processes (git, tmux, the shell, the
expression engine) are abstracted as oracle parameters, and effectful
operations are modelled as functions that also return the ordered trace of
external calls they perform.
-/

namespace Remux

/-! ## Go map model

Go maps are embedded as association lists. `lookup` finds the first binding
for a key; `upsert` mirrors a Go map write (`m[k] = v`): it overwrites the
existing binding in place, or appends a new one. `mapUnion base override`
mirrors copying `base` into a fresh map and then writing every entry of
`override` over it (config.go merge, and env-var merging in OpenSession).
-/

def lookup {α : Type} (m : List (String × α)) (k : String) : Option α :=
  match m with
  | [] => none
  | (k1, v) :: rest => if k1 = k then some v else lookup rest k

def upsert {α : Type} (m : List (String × α)) (k : String) (v : α) :
    List (String × α) :=
  match m with
  | [] => [(k, v)]
  | (k1, v1) :: rest =>
    if k1 = k then (k, v) :: rest else (k1, v1) :: upsert rest k v

def mapUnion {α : Type} (base override : List (String × α)) :
    List (String × α) :=
  override.foldl (fun acc p => upsert acc p.1 p.2) base

/-- First-match option choice (`some` on the left wins). -/
def pick {α : Type} (a b : Option α) : Option α :=
  match a with
  | some v => some v
  | none => b

/-! ## Config data model (src/config/config.go)

`Tab`, `Hooks`, `Config` and the template binding context `Space` are
embedded directly from config.go. The `Env` map is an association list
(Go `map[string]string`).
-/

namespace config

/-- Tab represents a tmux window/tab configuration (config.go). -/
structure Tab where
  Name : String
  Cmd : String
deriving DecidableEq, Repr

/-- Hooks contains lifecycle hook commands (config.go). -/
structure Hooks where
  OnCreate : List String
  OnOpen : List String
  OnDrop : List String
deriving DecidableEq, Repr

/-- Config represents a workspace configuration file (config.go). -/
structure Config where
  Env : List (String × String)
  Hooks : Hooks
  Tabs : List Tab
deriving DecidableEq, Repr

/-- Space provides template variables for expression evaluation (config.go). -/
structure Space where
  Name : String
  Path : String
  Port : Int
  ID : String
  RepoRoot : String
deriving DecidableEq, Repr

/-- NewSpace creates a Space from the given values, computing the ID
automatically by replacing hyphens with underscores (config.go). -/
def NewSpace (name path : String) (port : Int) (repoRoot : String) : Space :=
  { Name := name
    Path := path
    Port := port
    ID := name.replace "-" "_"
    RepoRoot := repoRoot }

/-- merge returns a new Config combining base and override (config.go).
Env: maps are merged when the override defines any entry (override keys win,
base-only keys preserved). Tabs: replaced entirely if the override defines
any. Hooks: replaced per hook type. -/
def merge (base override : Config) : Config :=
  { Env := if override.Env.length > 0 then mapUnion base.Env override.Env
           else base.Env
    Tabs := if override.Tabs.length > 0 then override.Tabs else base.Tabs
    Hooks :=
      { OnCreate := if override.Hooks.OnCreate.length > 0 then
            override.Hooks.OnCreate else base.Hooks.OnCreate
        OnOpen := if override.Hooks.OnOpen.length > 0 then
            override.Hooks.OnOpen else base.Hooks.OnOpen
        OnDrop := if override.Hooks.OnDrop.length > 0 then
            override.Hooks.OnDrop else base.Hooks.OnDrop } }

/-! ## Template evaluation (src/config/template.go)

`EvaluateTemplate` replaces every span matched by the Go regular expression
`\{\{\s*(.+?)\s*\}\}` by the evaluated value of the trimmed inner
expression. The expr-lang engine is external (spec section 1 treats it as a
black-box pure function), so evaluation is parametrised by an oracle
`ev : String -> Except String String` mapping an expression to its printed
value or an error message. The scanner below mirrors the regex: a span opens
at a double left brace, closes at the earliest double right brace such that
the enclosed text can be split as optional whitespace, a non-empty core
without a newline (the lazy dot-plus group), and optional whitespace; when
no such close exists the opening brace is literal text and scanning resumes
one character later, exactly like the leftmost-match search.
-/

/-- The left curly brace character (written by code so that brace tokens do
not appear in string literals). -/
def lbrace : Char := Char.ofNat 123

/-- The right curly brace character. -/
def rbrace : Char := Char.ofNat 125

/-- ASCII whitespace as matched by the regex class and by TrimSpace. -/
def isWs (c : Char) : Bool :=
  c = ' ' || c = '\t' || c = '\n' || c = '\r' || c = Char.ofNat 11 || c = Char.ofNat 12

/-- Strip whitespace from both ends of a character list (strings.TrimSpace). -/
def trimChars (cs : List Char) : List Char :=
  ((cs.dropWhile isWs).reverse.dropWhile isWs).reverse

/-- A span body can be produced by the group `\s*(.+?)\s*` exactly when some
character is not a newline and the trimmed body contains no newline. -/
def spanBodyValid (cs : List Char) : Bool :=
  cs.any (fun c => c ≠ '\n') && !((trimChars cs).contains '\n')

/-- Find the earliest double right brace closing a valid span. `body` holds
the reversed characters consumed so far. Returns the span body (in order)
and the characters after the closing braces. -/
def findSpanClose (body : List Char) : List Char → Option (List Char × List Char)
  | [] => none
  | [_] => none
  | c1 :: c2 :: rest =>
    if c1 = rbrace && c2 = rbrace && spanBodyValid body.reverse then
      some (body.reverse, rest)
    else
      findSpanClose (c1 :: body) (c2 :: rest)

/-- One piece of a template: literal text or the trimmed expression of a
span. -/
inductive Segment where
  | text (s : List Char)
  | expr (e : String)
deriving DecidableEq, Repr

/-- The expression carried by a segment, if any. -/
def segExpr : Segment → Option String
  | .text _ => none
  | .expr e => some e

/-- The literal text carried by a segment (empty for spans). -/
def segText : Segment → List Char
  | .text s => s
  | .expr _ => []

/-- Split a template into literal text and expression spans, mirroring
ReplaceAllStringFunc with the template pattern. `fuel` bounds recursion and
is always called with at least the length of the list. -/
def scanAux : Nat → List Char → List Segment
  | 0, cs => [.text cs]
  | _ + 1, [] => []
  | _ + 1, [c] => [.text [c]]
  | fuel + 1, c1 :: c2 :: rest =>
    if c1 = lbrace && c2 = lbrace then
      match findSpanClose [] rest with
      | some (body, after) =>
        .expr (trimChars body).asString :: scanAux fuel after
      | none => .text [c1] :: scanAux fuel (c2 :: rest)
    else
      .text [c1] :: scanAux fuel (c2 :: rest)

/-- The segments of a template string. -/
def scanTemplate (input : String) : List Segment :=
  scanAux input.toList.length input.toList

/-- The expressions of all spans of a template string, in order. -/
def templateSpans (input : String) : List String :=
  (scanTemplate input).filterMap segExpr

/-- A template evaluation error, carrying the offending expression text
(template.go wraps every compile or run failure with the expression). -/
structure TemplateError where
  expr : String
  msg : String
deriving DecidableEq, Repr

/-- Replace every span by its evaluated value; the first failing span
aborts the whole string with its expression text (template.go keeps the
first error and discards the replaced output). -/
def renderSegs (ev : String → Except String String) :
    List Segment → Except TemplateError (List Char)
  | [] => .ok []
  | .text s :: rest =>
    match renderSegs ev rest with
    | .ok out => .ok (s ++ out)
    | .error e => .error e
  | .expr e :: rest =>
    match ev e with
    | .error m => .error ⟨e, m⟩
    | .ok v =>
      match renderSegs ev rest with
      | .ok out => .ok (v.toList ++ out)
      | .error e1 => .error e1

/-- EvaluateTemplate evaluates all template spans in the input string
(template.go), with the expression engine abstracted as `ev`. -/
def EvaluateTemplate (ev : String → Except String String) (input : String) :
    Except TemplateError String :=
  match renderSegs ev (scanTemplate input) with
  | .ok cs => .ok ⟨cs⟩
  | .error e => .error e

/-- A dynamically typed binding value passed to the expression engine. -/
inductive GoValue where
  | str (s : String)
  | int (n : Int)
deriving DecidableEq, Repr

/-- The `space` binding map constructed by EvaluateTemplate
(template.go lines 16-24): exactly the fields Name, Path, Port and ID. -/
def spaceBindings (s : Space) : List (String × GoValue) :=
  [("Name", .str s.Name), ("Path", .str s.Path),
   ("Port", .int s.Port), ("ID", .str s.ID)]

/-! ## Env and hook resolution (src/config/config.go, hooks.go) -/

/-- ResolveEnv evaluates template expressions in env vars and returns the
resolved values; the first failure aborts with no partial result
(config.go). -/
def ResolveEnv (ev : String → Except String String) :
    List (String × String) → Except TemplateError (List (String × String))
  | [] => .ok []
  | (k, v) :: rest =>
    match EvaluateTemplate ev v with
    | .error e => .error e
    | .ok r =>
      match ResolveEnv ev rest with
      | .error e => .error e
      | .ok m => .ok ((k, r) :: m)

/-- runHooks executes each hook command in order (hooks.go): the command is
template-resolved, then run through the shell (abstracted as `ex`, mapping a
resolved command to its outcome). Returns the outcome together with the list
of commands actually executed. A resolution failure stops before running the
command; a failing command stops the remaining ones. -/
def runHooks (ev : String → Except String String)
    (ex : String → Except String Unit) :
    List String → Except String Unit × List String
  | [] => (.ok (), [])
  | cmd :: rest =>
    match EvaluateTemplate ev cmd with
    | .error e => (.error ("failed to evaluate hook command: " ++ e.expr), [])
    | .ok resolved =>
      match ex resolved with
      | .error _ => (.error ("hook failed: " ++ resolved), [resolved])
      | .ok _ =>
        match runHooks ev ex rest with
        | (res, trace) => (res, resolved :: trace)

/-- RunOnOpen executes on_open hooks (config.go): nothing happens for an
empty list; otherwise the whole env map is resolved first, and only then are
the commands run. The middle component records whether env resolution was
attempted; the last lists the executed commands. -/
def RunOnOpen (ev : String → Except String String)
    (ex : String → Except String Unit) (c : Config) :
    Except String Unit × Bool × List String :=
  if c.Hooks.OnOpen.length = 0 then (.ok (), false, [])
  else
    match ResolveEnv ev c.Env with
    | .error e => (.error ("on_open hook failed to resolve env: " ++ e.expr), true, [])
    | .ok _ =>
      match runHooks ev ex c.Hooks.OnOpen with
      | (res, trace) => (res, true, trace)

/-- RunOnDrop executes on_drop hooks (config.go), with the same shape as
RunOnOpen. -/
def RunOnDrop (ev : String → Except String String)
    (ex : String → Except String Unit) (c : Config) :
    Except String Unit × Bool × List String :=
  if c.Hooks.OnDrop.length = 0 then (.ok (), false, [])
  else
    match ResolveEnv ev c.Env with
    | .error e => (.error ("on_drop hook failed to resolve env: " ++ e.expr), true, [])
    | .ok _ =>
      match runHooks ev ex c.Hooks.OnDrop with
      | (res, trace) => (res, true, trace)

end config

/-! ## Registry (registry package)

The registry implementation (entries with ports, port allocation) is not
present in src; only its test suite and callers are. The definitions are
therefore modelled from the spec. -/

namespace registry

/-- A registry entry: workspace name, worktree path, allocated port and the
originating repository root (spec section 3). -/
structure RegistryEntry where
  Name : String
  Path : String
  Port : Int
  RepoRoot : String
deriving DecidableEq, Repr

/-- Modelled from the spec: the registry package is absent from src (only
its tests reference it); an ordered collection of entries. -/
structure Registry where
  Spaces : List RegistryEntry
deriving DecidableEq, Repr

/-- Modelled from the spec: base of the port range (the first workspace gets
11010 per the repository README and registry tests). -/
def BasePort : Int := 11010

/-- Modelled from the spec: size of the contiguous port block reserved per
entry (consecutive workspaces get 11010, 11020, ... per README and tests). -/
def PortRange : Int := 10

/-- Modelled from the spec: next allocation is
max(existing ports, basePort - portRange) + portRange (spec section 4.2). -/
def AllocatePort (r : Registry) : Int :=
  (r.Spaces.map RegistryEntry.Port).foldl max (BasePort - PortRange) + PortRange

end registry

/-! ## Space registry (src/spaces/spaces.go)

The registry variant present in src tracks name and path; Add upserts by
name and Remove deletes by name. -/

namespace spaces

/-- Space represents a tracked workspace (spaces.go). -/
structure Space where
  Name : String
  Path : String
deriving DecidableEq, Repr

/-- Registry holds a list of tracked spaces (spaces.go). -/
structure Registry where
  Spaces : List Space
deriving DecidableEq, Repr

/-- The list transformation behind Add: overwrite the path of the first
entry with the given name, or append a new entry (spaces.go). -/
def addList (name path : String) : List Space → List Space
  | [] => [{ Name := name, Path := path }]
  | s :: rest =>
    if s.Name = name then { s with Path := path } :: rest
    else s :: addList name path rest

/-- Add adds a space to the registry; idempotent, updates the path if the
name exists (spaces.go). -/
def Add (r : Registry) (name path : String) : Registry :=
  { Spaces := addList name path r.Spaces }

/-- The list transformation behind Remove: drop the first entry with the
given name (spaces.go). -/
def removeList (name : String) : List Space → List Space
  | [] => []
  | s :: rest => if s.Name = name then rest else s :: removeList name rest

/-- Remove removes a space by name (spaces.go). -/
def Remove (r : Registry) (name : String) : Registry :=
  { Spaces := removeList name r.Spaces }

/-! ## OpenSession environment (src/unnamed/part_002, OpenSession)

OpenSession starts from an empty env-var map, writes SPACE_PORT from the
registry entry's port, and then writes every resolved config env entry over
it; the result is injected into the newly created session. -/

/-- The session environment built by OpenSession from the entry's port and
the resolved config env map. -/
def sessionEnv (port : Int) (resolved : List (String × String)) :
    List (String × String) :=
  mapUnion (upsert [] "SPACE_PORT" (toString port)) resolved

/-- The env-construction slice of OpenSession: resolve the config env map
and merge it over the synthesized SPACE_PORT entry; a resolution failure
aborts the open. -/
def openSessionEnv (ev : String → Except String String) (c : config.Config)
    (port : Int) : Except config.TemplateError (List (String × String)) :=
  match config.ResolveEnv ev c.Env with
  | .error e => .error e
  | .ok resolved => .ok (sessionEnv port resolved)

/-! ## Tab materialization (src/unnamed/part_002, setupTabs)

setupTabs realizes resolved tabs as tmux windows. The calls below are the
trace of tmux operations on the success path. -/

/-- A tmux window operation issued while materializing tabs. -/
inductive TmuxCall where
  | renameWindow (session target newName : String)
  | newWindow (session workdir name : String)
  | sendKeys (session window keys : String)
  | selectWindow (session window : String)
deriving DecidableEq, Repr

/-- The tmux calls for the tab at position `i`: the first tab reuses the
default window (renaming it only when named); every later tab creates a new
window at the workdir; a non-empty command is then sent to the active
window (setupTabs). -/
def tabCalls (session workdir : String) (i : Nat) (tab : config.Tab) :
    List TmuxCall :=
  (if i = 0 then
    (if tab.Name ≠ "" then [.renameWindow session "" tab.Name] else [])
   else [.newWindow session workdir tab.Name])
  ++ (if tab.Cmd ≠ "" then [.sendKeys session "" tab.Cmd] else [])

/-- setupTabs configures tmux windows based on tab configuration and finally
reselects the first window (setupTabs, part_002). -/
def setupTabs (session workdir : String) (tabs : List config.Tab) :
    List TmuxCall :=
  (tabs.enum.map (fun p => tabCalls session workdir p.1 p.2)).flatten
  ++ [.selectWindow session "\x7bstart\x7d"]

/-- The window operations performed by OpenSession for a resolved tab list:
setupTabs is invoked only when at least one tab is configured
(OpenSession, part_002). -/
def openSessionTabCalls (session workdir : String)
    (tabs : List config.Tab) : List TmuxCall :=
  if tabs.length > 0 then setupTabs session workdir tabs else []

end spaces

/-! ## Drop (src/unnamed/part_005)

Drop is a straight-line sequence of external calls; the outcomes of those
calls are supplied by a `DropWorld` oracle and the model returns both Drop's
result and the ordered trace of calls it performed. -/

namespace spaces

/-- One external call made by Drop. -/
inductive DropStep where
  | checkWorktree
  | checkDirty
  | getMainRepo
  | openSpace
  | runOnDrop
  | removeWorktree
  | removeDir
  | loadRegistry
  | removeEntry
  | saveRegistry
  | killSession
deriving DecidableEq, Repr

/-- Steps that destroy state: removing the worktree, deleting the workspace
directory, or modifying the persisted registry. -/
def destructive : DropStep → Bool
  | .removeWorktree => true
  | .removeDir => true
  | .removeEntry => true
  | .saveRegistry => true
  | _ => false

/-- Oracle for the external calls Drop makes, in source order. -/
structure DropWorld where
  isWorktree : Bool
  hasUncommitted : Bool
  mainRepoResult : Except String String
  spaceOpens : Bool
  onDropResult : Except String Unit
  removeWorktreeResult : Except String Unit
  removeDirResult : Except String Unit
  registryLoads : Bool
deriving Repr

/-- The destructive tail of Drop: remove the worktree, delete the directory,
unregister (best effort) and kill the session (part_005). -/
def dropTail (w : DropWorld) (tr : List DropStep) :
    Except String Unit × List DropStep :=
  match w.removeWorktreeResult with
  | .error e => (.error ("failed to remove worktree: " ++ e), tr ++ [.removeWorktree])
  | .ok _ =>
    match w.removeDirResult with
    | .error e =>
      (.error ("failed to remove directory: " ++ e), tr ++ [.removeWorktree, .removeDir])
    | .ok _ =>
      (.ok (),
        tr ++ [.removeWorktree, .removeDir, .loadRegistry]
          ++ (if w.registryLoads then [.removeEntry, .saveRegistry] else [])
          ++ [.killSession])

/-- Drop removes a git worktree and unregisters it (part_005): it fails
before any destructive step when the path is not a worktree, when the
working tree is dirty, when the main repository cannot be found, or when a
resolved on_drop hook fails; an unregistered space skips the hooks. -/
def Drop (w : DropWorld) : Except String Unit × List DropStep :=
  if !w.isWorktree then (.error "not in a git worktree", [.checkWorktree])
  else if w.hasUncommitted then
    (.error "worktree has uncommitted changes, aborting", [.checkWorktree, .checkDirty])
  else
    match w.mainRepoResult with
    | .error e =>
      (.error ("failed to find main repository: " ++ e),
        [.checkWorktree, .checkDirty, .getMainRepo])
    | .ok _ =>
      if w.spaceOpens then
        match w.onDropResult with
        | .error e =>
          (.error e, [.checkWorktree, .checkDirty, .getMainRepo, .openSpace, .runOnDrop])
        | .ok _ =>
          dropTail w [.checkWorktree, .checkDirty, .getMainRepo, .openSpace, .runOnDrop]
      else
        dropTail w [.checkWorktree, .checkDirty, .getMainRepo, .openSpace]

end spaces

/-! ## Concrete oracles used by witnesses -/

/-- An expression engine that rejects every expression (usable to show that
a result does not depend on the engine). -/
def evUndefined : String → Except String String :=
  fun e => .error ("undefined: " ++ e)

/-- A shell oracle under which every command succeeds. -/
def exOk : String → Except String Unit :=
  fun _ => .ok ()

/-- A concrete template holding one span whose expression is "bad"
(built from characters so that no brace appears in a string literal). -/
def spanBad : String :=
  ⟨[config.lbrace, config.lbrace, ' ', 'b', 'a', 'd', ' ',
    config.rbrace, config.rbrace]⟩

/-! ## Helper lemmas on the Go map model -/

theorem lookup_upsert {α : Type} (m : List (String × α)) (k k1 : String)
    (v : α) :
    lookup (upsert m k v) k1 = if k = k1 then some v else lookup m k1 := by
  induction m with
  | nil => simp [upsert, lookup]
  | cons hd tl ih =>
    obtain ⟨k2, v2⟩ := hd
    by_cases h2 : k2 = k
    · subst h2
      by_cases h1 : k2 = k1 <;> simp [upsert, lookup, h1]
    · by_cases h1 : k2 = k1
      · subst h1
        have hne : ¬ k = k2 := fun h => h2 h.symm
        simp [upsert, lookup, h2, hne]
      · simp [upsert, lookup, h2, h1, ih]

theorem lookup_eq_none_of_not_mem {α : Type} (m : List (String × α))
    (k : String) (h : k ∉ m.map Prod.fst) : lookup m k = none := by
  induction m with
  | nil => rfl
  | cons hd tl ih =>
    obtain ⟨k1, v1⟩ := hd
    simp only [List.map_cons, List.mem_cons] at h
    push_neg at h
    have h1 : k1 ≠ k := fun he => h.1 he.symm
    simp [lookup, h1, ih h.2]

theorem lookup_mapUnion {α : Type} (base override : List (String × α))
    (k : String) (hnd : (override.map Prod.fst).Nodup) :
    lookup (mapUnion base override) k
      = pick (lookup override k) (lookup base k) := by
  induction override generalizing base with
  | nil => simp [mapUnion, lookup, pick]
  | cons hd tl ih =>
    obtain ⟨k0, v0⟩ := hd
    simp only [List.map_cons, List.nodup_cons] at hnd
    have step : mapUnion base ((k0, v0) :: tl)
        = mapUnion (upsert base k0 v0) tl := rfl
    rw [step, ih (upsert base k0 v0) hnd.2]
    by_cases hk : k0 = k
    · subst hk
      have hnone : lookup tl k0 = none :=
        lookup_eq_none_of_not_mem tl k0 hnd.1
      simp [lookup, hnone, lookup_upsert, pick]
    · simp [lookup, hk, lookup_upsert, pick]

theorem lookup_mapUnion_of_none {α : Type} (base override : List (String × α))
    (k : String) (h : lookup override k = none) :
    lookup (mapUnion base override) k = lookup base k := by
  induction override generalizing base with
  | nil => rfl
  | cons hd tl ih =>
    obtain ⟨k0, v0⟩ := hd
    by_cases hk : k0 = k
    · simp [lookup, hk] at h
    · simp only [lookup, if_neg hk] at h
      have step : mapUnion base ((k0, v0) :: tl)
          = mapUnion (upsert base k0 v0) tl := rfl
      rw [step, ih (upsert base k0 v0) h, lookup_upsert]
      simp [hk]

theorem lookup_mapUnion_isSome {α : Type}
    (base override : List (String × α)) (k : String) (v : α)
    (h : lookup base k = some v) :
    ∃ v1, lookup (mapUnion base override) k = some v1 := by
  induction override generalizing base v with
  | nil => exact ⟨v, h⟩
  | cons hd tl ih =>
    obtain ⟨k0, v0⟩ := hd
    have step : mapUnion base ((k0, v0) :: tl)
        = mapUnion (upsert base k0 v0) tl := rfl
    rw [step]
    by_cases hk : k0 = k
    · exact ih (upsert base k0 v0) v0 (by rw [lookup_upsert]; simp [hk])
    · exact ih (upsert base k0 v0) v (by rw [lookup_upsert]; simp [hk, h])

/-! ## Helper lemmas on foldl max (port allocation) -/

theorem le_foldl_max (l : List Int) (a : Int) : a ≤ l.foldl max a := by
  induction l generalizing a with
  | nil => exact le_refl a
  | cons b t ih =>
    calc a ≤ max a b := le_max_left a b
    _ ≤ t.foldl max (max a b) := ih (max a b)

theorem mem_le_foldl_max (l : List Int) (a x : Int) (hx : x ∈ l) :
    x ≤ l.foldl max a := by
  induction l generalizing a with
  | nil => cases hx
  | cons b t ih =>
    rcases List.mem_cons.mp hx with h | h
    · subst h
      calc x ≤ max a x := le_max_right a x
      _ ≤ t.foldl max (max a x) := le_foldl_max t (max a x)
    · exact ih h (a := max a b)

/-! ## C1: port allocation -/

/-- C1: allocatePort returns one block past the maximum existing port:
an empty registry yields the base port; entries at 11010, 11020, 11030
yield 11040; entries at 11010 and 11050 yield 11060 (a gap below the
maximum is never reused); in general every existing entry's full block lies
strictly below the allocation and the allocation never falls below the base
port. -/
theorem allocatePort_spec :
    registry.AllocatePort ⟨[]⟩ = registry.BasePort
    ∧ registry.AllocatePort ⟨[⟨"space1", "/path/1", 11010, "/repo/root"⟩,
        ⟨"space2", "/path/2", 11020, "/repo/root"⟩,
        ⟨"space3", "/path/3", 11030, "/repo/root"⟩]⟩ = 11040
    ∧ registry.AllocatePort ⟨[⟨"space1", "/path/1", 11010, "/repo/root"⟩,
        ⟨"space2", "/path/2", 11050, "/repo/root"⟩]⟩ = 11060
    ∧ (∀ r : registry.Registry, ∀ e ∈ r.Spaces,
        e.Port + registry.PortRange ≤ registry.AllocatePort r)
    ∧ (∀ r : registry.Registry, registry.BasePort ≤ registry.AllocatePort r) := by
  refine ⟨by decide, by decide, by decide, ?_, ?_⟩
  · intro r e he
    have hmem : e.Port ∈ r.Spaces.map registry.RegistryEntry.Port :=
      List.mem_map_of_mem registry.RegistryEntry.Port he
    have h := mem_le_foldl_max (r.Spaces.map registry.RegistryEntry.Port)
      (registry.BasePort - registry.PortRange) e.Port hmem
    unfold registry.AllocatePort
    omega
  · intro r
    have h := le_foldl_max (r.Spaces.map registry.RegistryEntry.Port)
      (registry.BasePort - registry.PortRange)
    unfold registry.AllocatePort
    omega

/-- Witness for C1 at a concrete registry and entry. -/
theorem allocatePort_spec_witness :
    (⟨"space1", "/path/1", 11010, "/repo/root"⟩ : registry.RegistryEntry)
        ∈ (⟨[⟨"space1", "/path/1", 11010, "/repo/root"⟩,
             ⟨"space2", "/path/2", 11050, "/repo/root"⟩]⟩ : registry.Registry).Spaces
    ∧ (⟨"space1", "/path/1", 11010, "/repo/root"⟩ : registry.RegistryEntry).Port
        + registry.PortRange
        ≤ registry.AllocatePort ⟨[⟨"space1", "/path/1", 11010, "/repo/root"⟩,
            ⟨"space2", "/path/2", 11050, "/repo/root"⟩]⟩ :=
  ⟨by decide,
   allocatePort_spec.2.2.2.1
     ⟨[⟨"space1", "/path/1", 11010, "/repo/root"⟩,
       ⟨"space2", "/path/2", 11050, "/repo/root"⟩]⟩
     ⟨"space1", "/path/1", 11010, "/repo/root"⟩ (by decide)⟩

/-! ## C2: config merge -/

/-- C2: merging a local config over a base config takes the local value for
every key defined in both env maps and retains base-only keys; the local
tabs replace the base tabs exactly when the local document defines at least
one tab; and each hook list is replaced independently exactly when the local
list for that hook is non-empty. -/
theorem merge_spec (base loc : config.Config)
    (hnd : (loc.Env.map Prod.fst).Nodup) :
    (∀ k, lookup (config.merge base loc).Env k
        = pick (lookup loc.Env k) (lookup base.Env k))
    ∧ (loc.Tabs ≠ [] → (config.merge base loc).Tabs = loc.Tabs)
    ∧ (loc.Tabs = [] → (config.merge base loc).Tabs = base.Tabs)
    ∧ (loc.Hooks.OnCreate ≠ [] →
        (config.merge base loc).Hooks.OnCreate = loc.Hooks.OnCreate)
    ∧ (loc.Hooks.OnCreate = [] →
        (config.merge base loc).Hooks.OnCreate = base.Hooks.OnCreate)
    ∧ (loc.Hooks.OnOpen ≠ [] →
        (config.merge base loc).Hooks.OnOpen = loc.Hooks.OnOpen)
    ∧ (loc.Hooks.OnOpen = [] →
        (config.merge base loc).Hooks.OnOpen = base.Hooks.OnOpen)
    ∧ (loc.Hooks.OnDrop ≠ [] →
        (config.merge base loc).Hooks.OnDrop = loc.Hooks.OnDrop)
    ∧ (loc.Hooks.OnDrop = [] →
        (config.merge base loc).Hooks.OnDrop = base.Hooks.OnDrop) := by
  refine ⟨?_, ?_, ?_, ?_, ?_, ?_, ?_, ?_, ?_⟩
  · intro k
    by_cases he : loc.Env = []
    · have hnone : lookup loc.Env k = none := by rw [he]; rfl
      simp [config.merge, he, hnone, pick, lookup]
    · have hlen : loc.Env.length > 0 := List.length_pos.mpr he
      simp only [config.merge, if_pos hlen]
      exact lookup_mapUnion base.Env loc.Env k hnd
  · intro h
    simp [config.merge, List.length_pos.mpr h]
  · intro h
    simp [config.merge, h]
  · intro h
    simp [config.merge, List.length_pos.mpr h]
  · intro h
    simp [config.merge, h]
  · intro h
    simp [config.merge, List.length_pos.mpr h]
  · intro h
    simp [config.merge, h]
  · intro h
    simp [config.merge, List.length_pos.mpr h]
  · intro h
    simp [config.merge, h]

/-- Witness for C2 at the spec's concrete example: base FOO/BAR, local
FOO/BAZ, with a local on_open hook replacing only on_open. -/
theorem merge_spec_witness :
    (((⟨[("FOO", "local"), ("BAZ", "local_only")],
        ⟨[], ["local-open"], []⟩, []⟩ : config.Config).Env.map Prod.fst).Nodup)
    ∧ lookup (config.merge
        ⟨[("FOO", "base"), ("BAR", "base_only")],
          ⟨["base-create"], ["base-open"], ["base-drop"]⟩, []⟩
        ⟨[("FOO", "local"), ("BAZ", "local_only")],
          ⟨[], ["local-open"], []⟩, []⟩).Env "FOO"
      = pick (lookup [("FOO", "local"), ("BAZ", "local_only")] "FOO")
          (lookup [("FOO", "base"), ("BAR", "base_only")] "FOO") :=
  ⟨by decide,
   (merge_spec
      ⟨[("FOO", "base"), ("BAR", "base_only")],
        ⟨["base-create"], ["base-open"], ["base-drop"]⟩, []⟩
      ⟨[("FOO", "local"), ("BAZ", "local_only")],
        ⟨[], ["local-open"], []⟩, []⟩ (by decide)).1 "FOO"⟩

/-! ## C3: template binding context -/

/-- C3: the binding map that EvaluateTemplate exposes to the expression
engine is missing the RepoRoot field: at the test suite's concrete binding
context (RepoRoot "/repo/root"), looking up "RepoRoot" in the constructed
`space` bindings yields nothing, while Name/Path/Port/ID are all exposed;
the Space struct itself does carry RepoRoot. -/
theorem spaceBindings_no_repoRoot :
    lookup (config.spaceBindings
        ⟨"test-space", "/path/to/space", 11020, "test_space", "/repo/root"⟩)
        "RepoRoot" = none
    ∧ (⟨"test-space", "/path/to/space", 11020, "test_space", "/repo/root"⟩
        : config.Space).RepoRoot = "/repo/root"
    ∧ lookup (config.spaceBindings
        ⟨"test-space", "/path/to/space", 11020, "test_space", "/repo/root"⟩)
        "Port" = some (.int 11020)
    ∧ lookup (config.spaceBindings
        ⟨"test-space", "/path/to/space", 11020, "test_space", "/repo/root"⟩)
        "Name" = some (.str "test-space") := by
  refine ⟨by decide, by decide, by decide, by decide⟩

/-! ## C4: Drop performs no destructive action on error -/

/-- C4: when the working tree is dirty, or when the space opens and its
on_drop hook fails, Drop returns an error and its trace contains no
destructive step: the worktree is not removed, the directory is not
deleted, and the registry is not modified. -/
theorem drop_nondestructive (w : spaces.DropWorld) :
    (w.isWorktree = true → w.hasUncommitted = true →
      (∃ msg, (spaces.Drop w).1 = .error msg)
      ∧ ∀ s ∈ (spaces.Drop w).2, spaces.destructive s = false)
    ∧ (∀ e, w.isWorktree = true → w.hasUncommitted = false →
        w.spaceOpens = true → w.onDropResult = .error e →
        (∃ msg, (spaces.Drop w).1 = .error msg)
        ∧ ∀ s ∈ (spaces.Drop w).2, spaces.destructive s = false) := by
  constructor
  · intro hwt hdirty
    simp only [spaces.Drop, hwt, hdirty, Bool.not_true, Bool.false_eq_true,
      if_false, if_true]
    exact ⟨⟨"worktree has uncommitted changes, aborting", rfl⟩, by decide⟩
  · intro e hwt hclean hopen hdrop
    rcases hmain : w.mainRepoResult with em | vm
    · simp only [spaces.Drop, hwt, hclean, hmain, Bool.not_true,
        Bool.false_eq_true, if_false, if_true]
      exact ⟨⟨"failed to find main repository: " ++ em, rfl⟩, by decide⟩
    · simp only [spaces.Drop, hwt, hclean, hmain, hopen, hdrop,
        Bool.not_true, Bool.false_eq_true, if_false, if_true]
      exact ⟨⟨e, rfl⟩, by decide⟩

/-- Witness for C4: both abort paths at concrete worlds — a dirty worktree,
and a failing on_drop hook on a clean registered worktree. -/
theorem drop_nondestructive_witness :
    ((∃ msg, (spaces.Drop ⟨true, true, .ok "/repo", true, .ok (),
        .ok (), .ok (), true⟩).1 = .error msg)
      ∧ ∀ s ∈ (spaces.Drop ⟨true, true, .ok "/repo", true, .ok (),
          .ok (), .ok (), true⟩).2, spaces.destructive s = false)
    ∧ ((∃ msg, (spaces.Drop ⟨true, false, .ok "/repo", true,
        .error "docker compose down failed", .ok (), .ok (), true⟩).1
          = .error msg)
      ∧ ∀ s ∈ (spaces.Drop ⟨true, false, .ok "/repo", true,
          .error "docker compose down failed", .ok (), .ok (), true⟩).2,
          spaces.destructive s = false) :=
  ⟨(drop_nondestructive ⟨true, true, .ok "/repo", true, .ok (), .ok (),
      .ok (), true⟩).1 rfl rfl,
   (drop_nondestructive ⟨true, false, .ok "/repo", true,
      .error "docker compose down failed", .ok (), .ok (), true⟩).2
      "docker compose down failed" rfl rfl rfl rfl⟩

/-! ## C5: SPACE_PORT injection -/

/-- C5 counterexample: the claim that the injected SPACE_PORT always equals
the registry entry's port fails when the config env itself defines
SPACE_PORT: with config env mapping SPACE_PORT to "9999" and entry port
11010, OpenSession's env construction yields SPACE_PORT = "9999", because
resolved config entries are written over the synthesized variable. -/
theorem openSessionEnv_counterexample :
    spaces.openSessionEnv evUndefined
        ⟨[("SPACE_PORT", "9999")], ⟨[], [], []⟩, []⟩ 11010
      = .ok [("SPACE_PORT", "9999")]
    ∧ lookup [("SPACE_PORT", "9999")] "SPACE_PORT" = some "9999"
    ∧ some "9999" ≠ some (toString (11010 : Int)) := by
  refine ⟨rfl, by decide, by decide⟩

/-- C5 amended: the injected environment always contains SPACE_PORT; its
value equals the registry entry's port whenever the resolved config env
does not itself define SPACE_PORT, while a config-defined entry (with
distinct keys) overrides the synthesized value. -/
theorem sessionEnv_space_port (port : Int)
    (resolved : List (String × String)) :
    (lookup resolved "SPACE_PORT" = none →
      lookup (spaces.sessionEnv port resolved) "SPACE_PORT"
        = some (toString port))
    ∧ ((resolved.map Prod.fst).Nodup → ∀ k v, lookup resolved k = some v →
        lookup (spaces.sessionEnv port resolved) k = some v)
    ∧ (∃ v, lookup (spaces.sessionEnv port resolved) "SPACE_PORT" = some v) := by
  refine ⟨?_, ?_, ?_⟩
  · intro hnone
    unfold spaces.sessionEnv
    rw [lookup_mapUnion_of_none _ _ _ hnone, lookup_upsert]
    simp
  · intro hnd k v hv
    unfold spaces.sessionEnv
    rw [lookup_mapUnion _ _ _ hnd, hv]
    rfl
  · unfold spaces.sessionEnv
    exact lookup_mapUnion_isSome _ resolved "SPACE_PORT" (toString port)
      (by rw [lookup_upsert]; simp)

/-- Witness for C5 (amended) at a concrete port and resolved env without a
SPACE_PORT key. -/
theorem sessionEnv_space_port_witness :
    lookup [("FOO", "x")] "SPACE_PORT" = none
    ∧ lookup (spaces.sessionEnv 11020 [("FOO", "x")]) "SPACE_PORT"
        = some (toString (11020 : Int)) :=
  ⟨by decide, (sessionEnv_space_port 11020 [("FOO", "x")]).1 (by decide)⟩

/-! ## C6: ResolveEnv is all-or-nothing -/

/-- C6: for every expression engine and env map, ResolveEnv either returns
a mapping resolving every entry in order (so every env key is covered), or
fails with the template error of one of the entries (which carries the
offending expression text in its expr field); it never returns a partial
result alongside an error. -/
theorem resolveEnv_total_or_fail (ev : String → Except String String)
    (env : List (String × String)) :
    (∃ m, config.ResolveEnv ev env = .ok m
      ∧ List.Forall₂ (fun kv rv => kv.1 = rv.1
          ∧ config.EvaluateTemplate ev kv.2 = .ok rv.2) env m
      ∧ ∀ kv ∈ env, ∃ r, lookup m kv.1 = some r)
    ∨ (∃ e, config.ResolveEnv ev env = .error e
      ∧ ∃ kv ∈ env, config.EvaluateTemplate ev kv.2 = .error e) := by
  induction env with
  | nil => exact Or.inl ⟨[], rfl, List.Forall₂.nil, by simp⟩
  | cons hd tl ih =>
    obtain ⟨k, v⟩ := hd
    rcases hev : config.EvaluateTemplate ev v with e | r
    · refine Or.inr ⟨e, ?_, (k, v), by simp, hev⟩
      simp [config.ResolveEnv, hev]
    · rcases ih with ⟨m, hok, hfa, hcov⟩ | ⟨e, herr, kv, hmem, hkv⟩
      · refine Or.inl ⟨(k, r) :: m, ?_, ?_, ?_⟩
        · simp [config.ResolveEnv, hev, hok]
        · exact List.Forall₂.cons ⟨rfl, hev⟩ hfa
        · intro kv hkv
          rcases List.mem_cons.mp hkv with h | h
          · exact ⟨r, by simp [h, lookup]⟩
          · by_cases hk : k = kv.1
            · exact ⟨r, by simp [lookup, hk]⟩
            · obtain ⟨r1, hr1⟩ := hcov kv h
              exact ⟨r1, by simp [lookup, hk, hr1]⟩
      · refine Or.inr ⟨e, ?_, kv, List.mem_cons_of_mem _ hmem, hkv⟩
        simp [config.ResolveEnv, hev, herr]

/-! ## C7: templates without spans are returned unchanged -/

theorem scanAux_cons2 (n : Nat) (c1 c2 : Char) (rest : List Char) :
    config.scanAux (n + 1) (c1 :: c2 :: rest)
      = if c1 = config.lbrace && c2 = config.lbrace then
          match config.findSpanClose [] rest with
          | some (body, after) =>
            .expr (config.trimChars body).asString :: config.scanAux n after
          | none => .text [c1] :: config.scanAux n (c2 :: rest)
        else .text [c1] :: config.scanAux n (c2 :: rest) := rfl

theorem renderSegs_no_expr (ev : String → Except String String)
    (segs : List config.Segment)
    (h : segs.filterMap config.segExpr = []) :
    config.renderSegs ev segs = .ok (segs.map config.segText).flatten := by
  induction segs with
  | nil => rfl
  | cons s rest ih =>
    cases s with
    | text t =>
      have h1 : rest.filterMap config.segExpr = [] := by
        simpa [config.segExpr] using h
      simp [config.renderSegs, ih h1, config.segText]
    | expr e => simp [config.segExpr] at h

theorem scanAux_no_expr_text (n : Nat) (cs : List Char)
    (h : (config.scanAux n cs).filterMap config.segExpr = []) :
    ((config.scanAux n cs).map config.segText).flatten = cs := by
  induction n generalizing cs with
  | zero => simp [config.scanAux, config.segText]
  | succ n ih =>
    cases cs with
    | nil => simp [config.scanAux]
    | cons c1 cs1 =>
      cases cs1 with
      | nil => simp [config.scanAux, config.segText]
      | cons c2 rest =>
        rw [scanAux_cons2] at h ⊢
        by_cases hb : (c1 = config.lbrace && c2 = config.lbrace) = true
        · rw [if_pos hb] at h ⊢
          cases hfc : config.findSpanClose [] rest with
          | some pr =>
            obtain ⟨body, after⟩ := pr
            rw [hfc] at h
            simp [config.segExpr] at h
          | none =>
            rw [hfc] at h
            have h1 : (config.scanAux n (c2 :: rest)).filterMap
                config.segExpr = [] := by
              simpa [config.segExpr] using h
            simp [config.segText, ih (c2 :: rest) h1]
        · rw [if_neg hb] at h ⊢
          have h1 : (config.scanAux n (c2 :: rest)).filterMap
              config.segExpr = [] := by
            simpa [config.segExpr] using h
          simp [config.segText, ih (c2 :: rest) h1]

/-- C7: a template string with no span is returned byte-identical and
successfully, for every expression engine (so no evaluator is invoked). -/
theorem evaluateTemplate_no_span_id (input : String)
    (ev : String → Except String String)
    (h : config.templateSpans input = []) :
    config.EvaluateTemplate ev input = .ok input := by
  have h1 : (config.scanTemplate input).filterMap config.segExpr = [] := h
  unfold config.EvaluateTemplate
  rw [renderSegs_no_expr ev _ h1]
  have h2 : ((config.scanTemplate input).map config.segText).flatten
      = input.toList := scanAux_no_expr_text _ _ h1
  rw [h2]
  cases input
  rfl

/-- Witness for C7 at a concrete span-free string and a failing engine. -/
theorem evaluateTemplate_no_span_id_witness :
    config.templateSpans "no templates here" = []
    ∧ config.EvaluateTemplate evUndefined "no templates here"
        = .ok "no templates here" :=
  ⟨by decide, evaluateTemplate_no_span_id "no templates here" evUndefined
    (by decide)⟩

/-! ## C8: tab materialization order -/

theorem tabCalls_enumFrom (s w : String) (l : List config.Tab) (n : Nat) :
    ((l.enumFrom (n + 1)).map (fun p => spaces.tabCalls s w p.1 p.2)).flatten
      = (l.map (fun tb => spaces.TmuxCall.newWindow s w tb.Name ::
          (if tb.Cmd ≠ "" then [spaces.TmuxCall.sendKeys s "" tb.Cmd]
           else []))).flatten := by
  induction l generalizing n with
  | nil => rfl
  | cons t rest ih =>
    simp only [List.enumFrom_cons, List.map_cons, List.flatten_cons, ih]
    simp [spaces.tabCalls]

/-- C8: with no resolved tabs OpenSession performs no window operation;
with tabs t, rest the calls are, in order: rename the default window when t
is named, send t's command when present, then for each later tab create a
new window at the workdir (with its possibly empty name) followed by its
command when present, and finally reselect the first window. -/
theorem openSession_tab_calls (s w : String) (tabs : List config.Tab) :
    (tabs = [] → spaces.openSessionTabCalls s w tabs = [])
    ∧ (∀ t rest, tabs = t :: rest →
        spaces.openSessionTabCalls s w tabs =
          (if t.Name ≠ "" then [spaces.TmuxCall.renameWindow s "" t.Name]
           else [])
          ++ (if t.Cmd ≠ "" then [spaces.TmuxCall.sendKeys s "" t.Cmd]
              else [])
          ++ (rest.map (fun tb => spaces.TmuxCall.newWindow s w tb.Name ::
                (if tb.Cmd ≠ "" then [spaces.TmuxCall.sendKeys s "" tb.Cmd]
                 else []))).flatten
          ++ [spaces.TmuxCall.selectWindow s "\x7bstart\x7d"]) := by
  constructor
  · intro h
    simp [spaces.openSessionTabCalls, h]
  · intro t rest h
    subst h
    have hpos : (t :: rest).length > 0 := Nat.succ_pos _
    simp only [spaces.openSessionTabCalls, if_pos hpos, spaces.setupTabs,
      List.enum_cons, List.map_cons, List.flatten_cons, tabCalls_enumFrom]
    simp [spaces.tabCalls, List.append_assoc]

/-- Witness for C8 at a concrete two-tab list. -/
theorem openSession_tab_calls_witness :
    ([⟨"editor", "vim"⟩, ⟨"", "npm start"⟩] : List config.Tab)
        = ⟨"editor", "vim"⟩ :: [⟨"", "npm start"⟩]
    ∧ spaces.openSessionTabCalls "sess" "/wd"
        [⟨"editor", "vim"⟩, ⟨"", "npm start"⟩] =
      (if ("editor" : String) ≠ "" then
        [spaces.TmuxCall.renameWindow "sess" "" "editor"] else [])
      ++ (if ("vim" : String) ≠ "" then
          [spaces.TmuxCall.sendKeys "sess" "" "vim"] else [])
      ++ (([⟨"", "npm start"⟩] : List config.Tab).map
          (fun tb => spaces.TmuxCall.newWindow "sess" "/wd" tb.Name ::
            (if tb.Cmd ≠ "" then [spaces.TmuxCall.sendKeys "sess" "" tb.Cmd]
             else []))).flatten
      ++ [spaces.TmuxCall.selectWindow "sess" "\x7bstart\x7d"] :=
  ⟨rfl, (openSession_tab_calls "sess" "/wd"
      [⟨"editor", "vim"⟩, ⟨"", "npm start"⟩]).2
      ⟨"editor", "vim"⟩ [⟨"", "npm start"⟩] rfl⟩

/-! ## C9: registry name uniqueness -/

theorem addList_map_name (name path : String) (l : List spaces.Space) :
    (spaces.addList name path l).map spaces.Space.Name
      = if name ∈ l.map spaces.Space.Name then l.map spaces.Space.Name
        else l.map spaces.Space.Name ++ [name] := by
  induction l with
  | nil => simp [spaces.addList]
  | cons s rest ih =>
    by_cases hs : s.Name = name
    · simp [spaces.addList, hs]
    · have hne : ¬ name = s.Name := fun h => hs h.symm
      by_cases hmem : name ∈ rest.map spaces.Space.Name
      · simp [spaces.addList, hs, hmem, ih, hne]
      · simp [spaces.addList, hs, hmem, ih, hne]

theorem addList_of_mem (name path : String) (l : List spaces.Space)
    (hnd : (l.map spaces.Space.Name).Nodup)
    (hmem : name ∈ l.map spaces.Space.Name) :
    spaces.addList name path l
      = l.map (fun s => if s.Name = name then { s with Path := path }
          else s) := by
  induction l with
  | nil => cases hmem
  | cons s rest ih =>
    simp only [List.map_cons, List.nodup_cons] at hnd
    by_cases hs : s.Name = name
    · subst hs
      have hrest : ∀ s1 ∈ rest,
          (if s1.Name = s.Name then { s1 with Path := path } else s1) = s1 := by
        intro s1 h1
        have hne : s1.Name ≠ s.Name := fun he =>
          hnd.1 (he ▸ List.mem_map_of_mem spaces.Space.Name h1)
        simp [hne]
      have hmap : rest.map
          (fun s1 => if s1.Name = s.Name then { s1 with Path := path }
            else s1) = rest := by
        rw [List.map_congr_left hrest]
        simp
      simp [spaces.addList, hmap]
    · have hmem1 : name ∈ rest.map spaces.Space.Name := by
        rcases List.mem_cons.mp hmem with h | h
        · exact absurd h.symm hs
        · exact h
      simp [spaces.addList, hs, ih hnd.2 hmem1]

theorem addList_of_not_mem (name path : String) (l : List spaces.Space)
    (hmem : name ∉ l.map spaces.Space.Name) :
    spaces.addList name path l = l ++ [{ Name := name, Path := path }] := by
  induction l with
  | nil => rfl
  | cons s rest ih =>
    simp only [List.map_cons, List.mem_cons] at hmem
    push_neg at hmem
    have hs : ¬ s.Name = name := fun h => hmem.1 h.symm
    simp [spaces.addList, hs, ih hmem.2]

theorem removeList_sublist (name : String) (l : List spaces.Space) :
    (spaces.removeList name l).Sublist l := by
  induction l with
  | nil => exact List.Sublist.refl []
  | cons s rest ih =>
    by_cases hs : s.Name = name
    · simp only [spaces.removeList, if_pos hs]
      exact List.sublist_cons_self s rest
    · simp only [spaces.removeList, if_neg hs]
      exact List.Sublist.cons₂ s ih

theorem removeList_eq_filter (name : String) (l : List spaces.Space)
    (hnd : (l.map spaces.Space.Name).Nodup) :
    spaces.removeList name l = l.filter (fun s => s.Name != name) := by
  induction l with
  | nil => rfl
  | cons s rest ih =>
    simp only [List.map_cons, List.nodup_cons] at hnd
    by_cases hs : s.Name = name
    · subst hs
      have hall : ∀ s1 ∈ rest, (s1.Name != s.Name) = true := by
        intro s1 h1
        have hne : s1.Name ≠ s.Name := fun he =>
          hnd.1 (he ▸ List.mem_map_of_mem spaces.Space.Name h1)
        simpa using hne
      simp [spaces.removeList, List.filter_cons,
        List.filter_eq_self.mpr hall]
    · simp [spaces.removeList, hs, ih hnd.2, List.filter_cons]

/-- C9: starting from a registry with pairwise-distinct names, Add and
Remove preserve name uniqueness; Add overwrites the existing entry in place
when the name is present (leaving the count unchanged) and appends exactly
one new entry otherwise; Remove deletes exactly the entries with the given
name (at most one, by uniqueness). -/
theorem registry_uniqueness (r : spaces.Registry) (name path : String)
    (hnd : (r.Spaces.map spaces.Space.Name).Nodup) :
    (((spaces.Add r name path).Spaces.map spaces.Space.Name).Nodup)
    ∧ (((spaces.Remove r name).Spaces.map spaces.Space.Name).Nodup)
    ∧ (name ∈ r.Spaces.map spaces.Space.Name →
        (spaces.Add r name path).Spaces
          = r.Spaces.map (fun s => if s.Name = name then
              { s with Path := path } else s)
        ∧ (spaces.Add r name path).Spaces.length = r.Spaces.length)
    ∧ (name ∉ r.Spaces.map spaces.Space.Name →
        (spaces.Add r name path).Spaces
          = r.Spaces ++ [{ Name := name, Path := path }])
    ∧ ((spaces.Remove r name).Spaces
        = r.Spaces.filter (fun s => s.Name != name)) := by
  refine ⟨?_, ?_, ?_, ?_, removeList_eq_filter name r.Spaces hnd⟩
  · have hstep : (spaces.Add r name path).Spaces
        = spaces.addList name path r.Spaces := rfl
    rw [hstep, addList_map_name]
    by_cases hmem : name ∈ r.Spaces.map spaces.Space.Name
    · simpa [hmem] using hnd
    · simp [hmem, List.nodup_append, hnd]
  · have hsub : ((spaces.Remove r name).Spaces.map spaces.Space.Name).Sublist
        (r.Spaces.map spaces.Space.Name) :=
      List.Sublist.map spaces.Space.Name (removeList_sublist name r.Spaces)
    exact List.Nodup.sublist hsub hnd
  · intro hmem
    have heq : (spaces.Add r name path).Spaces
        = r.Spaces.map (fun s => if s.Name = name then
            { s with Path := path } else s) :=
      addList_of_mem name path r.Spaces hnd hmem
    exact ⟨heq, by rw [heq, List.length_map]⟩
  · intro hmem
    exact addList_of_not_mem name path r.Spaces hmem

/-- Witness for C9 at a concrete two-entry registry with a present name. -/
theorem registry_uniqueness_witness :
    (((⟨[⟨"a", "/a"⟩, ⟨"b", "/b"⟩]⟩ : spaces.Registry).Spaces.map
        spaces.Space.Name).Nodup)
    ∧ "a" ∈ (⟨[⟨"a", "/a"⟩, ⟨"b", "/b"⟩]⟩ : spaces.Registry).Spaces.map
        spaces.Space.Name
    ∧ (spaces.Add ⟨[⟨"a", "/a"⟩, ⟨"b", "/b"⟩]⟩ "a" "/new").Spaces.length
        = (⟨[⟨"a", "/a"⟩, ⟨"b", "/b"⟩]⟩ : spaces.Registry).Spaces.length :=
  ⟨by decide, by decide,
   ((registry_uniqueness ⟨[⟨"a", "/a"⟩, ⟨"b", "/b"⟩]⟩ "a" "/new"
      (by decide)).2.2.1 (by decide)).2⟩

/-! ## C10: hook phases gate on env resolution -/

theorem resolveEnv_error_of_entry (ev : String → Except String String)
    (env : List (String × String)) (kv : String × String) (hmem : kv ∈ env)
    (e1 : config.TemplateError)
    (hkv : config.EvaluateTemplate ev kv.2 = .error e1) :
    ∃ e, config.ResolveEnv ev env = .error e := by
  induction env with
  | nil => cases hmem
  | cons hd tl ih =>
    obtain ⟨k0, v0⟩ := hd
    rcases List.mem_cons.mp hmem with h | h
    · subst h
      exact ⟨e1, by simp [config.ResolveEnv, hkv]⟩
    · rcases hev : config.EvaluateTemplate ev v0 with e | r
      · exact ⟨e, by simp [config.ResolveEnv, hev]⟩
      · obtain ⟨e, he⟩ := ih h
        exact ⟨e, by simp [config.ResolveEnv, hev, he]⟩

/-- C10: an empty hook list makes RunOnOpen and RunOnDrop succeed at once,
resolving no env and executing nothing; a non-empty list first resolves the
whole env map, and a resolution failure (caused by any failing env entry,
referenced by a command or not) aborts with an error before any command
runs. -/
theorem hook_env_gating (ev : String → Except String String)
    (ex : String → Except String Unit) (c : config.Config) :
    (c.Hooks.OnOpen = [] → config.RunOnOpen ev ex c = (.ok (), false, []))
    ∧ (∀ e, c.Hooks.OnOpen ≠ [] → config.ResolveEnv ev c.Env = .error e →
        config.RunOnOpen ev ex c
          = (.error ("on_open hook failed to resolve env: " ++ e.expr),
             true, []))
    ∧ (c.Hooks.OnDrop = [] → config.RunOnDrop ev ex c = (.ok (), false, []))
    ∧ (∀ e, c.Hooks.OnDrop ≠ [] → config.ResolveEnv ev c.Env = .error e →
        config.RunOnDrop ev ex c
          = (.error ("on_drop hook failed to resolve env: " ++ e.expr),
             true, []))
    ∧ (∀ kv ∈ c.Env, ∀ e1, config.EvaluateTemplate ev kv.2 = .error e1 →
        ∃ e, config.ResolveEnv ev c.Env = .error e) := by
  refine ⟨?_, ?_, ?_, ?_,
    fun kv hm e1 h => resolveEnv_error_of_entry ev c.Env kv hm e1 h⟩
  · intro h
    simp [config.RunOnOpen, h]
  · intro e hne herr
    have hlen : ¬ c.Hooks.OnOpen.length = 0 := by
      simpa [List.length_eq_zero] using hne
    simp [config.RunOnOpen, hlen, herr]
  · intro h
    simp [config.RunOnDrop, h]
  · intro e hne herr
    have hlen : ¬ c.Hooks.OnDrop.length = 0 := by
      simpa [List.length_eq_zero] using hne
    simp [config.RunOnDrop, hlen, herr]

/-- Witness for C10: the empty on_open phase of a config with env entries,
and the resolve-failure abort of a config whose env holds a failing span. -/
theorem hook_env_gating_witness :
    (⟨[("A", "x")], ⟨[], [], []⟩, []⟩ : config.Config).Hooks.OnOpen = []
    ∧ config.RunOnOpen evUndefined exOk ⟨[("A", "x")], ⟨[], [], []⟩, []⟩
        = (.ok (), false, [])
    ∧ (⟨[("A", spanBad)], ⟨[], ["echo hi"], []⟩, []⟩
        : config.Config).Hooks.OnOpen ≠ []
    ∧ config.RunOnOpen evUndefined exOk
        ⟨[("A", spanBad)], ⟨[], ["echo hi"], []⟩, []⟩
      = (.error ("on_open hook failed to resolve env: "
          ++ (⟨"bad", "undefined: bad"⟩ : config.TemplateError).expr),
         true, []) :=
  ⟨rfl,
   (hook_env_gating evUndefined exOk ⟨[("A", "x")], ⟨[], [], []⟩, []⟩).1 rfl,
   by decide,
   (hook_env_gating evUndefined exOk
      ⟨[("A", spanBad)], ⟨[], ["echo hi"], []⟩, []⟩).2.1
      ⟨"bad", "undefined: bad"⟩ (by decide) rfl⟩

end Remux
